import Mathlib

/-!
Verification development for the pyang sample-output plugin
(pyang/plugins/sample.py).

The plugin walks an already-parsed and already-validated YANG statement
tree and emits a sample XML instance document.  We embed the statement
tree, the XML output, the dispatch table and the recursive traversal of
SamplePlugin, and prove the claimed properties of emit.

Modelling conventions:
* A statement node carries only the pieces of pyang state the plugin
  reads: keyword, arg, the args of the min-elements, max-elements,
  presence and type substatements found by search_one, the computed
  default i_default (as the string str produces for it), the identity of
  its main module (main_module), and i_children.
* The arg of a min-elements substatement is stored already parsed as an
  Int, which is what int(minel.arg) yields in add_copies; max-elements is
  kept as the raw string since the code only splices it into a comment.
* Python exceptions are modelled by Except: EmitError from the two guard
  raises in emit, KeyError from the two dict lookups
  (node_handler[ch.keyword] and ns_uri[mm]), and AttributeError from
  node.search_one("type").arg when the type substatement is absent.
* ElementTree elements become XNode.elem with tag, attribute list, text
  and children; ET.Comment becomes XNode.comment.  Writing the tree to
  the output stream is modelled by returning the root element: an
  Except.error result means nothing was written.
-/

mutual

/-- A YANG statement node as the plugin sees it, together with the forest
of its i_children.  The fields after arg are, in order: the parsed arg of
the min-elements substatement, the raw arg of the max-elements
substatement, the arg of the presence substatement, the arg of the type
substatement, str of i_default, and the identity of main_module. -/
inductive SNode : Type where
  | node (keyword : String) (arg : String)
      (minEl : Option Int) (maxEl : Option String)
      (presence : Option String) (typeArg : Option String)
      (iDefault : Option String) (mainMod : Nat)
      (children : SForest) : SNode

/-- The i_children list of a statement node. -/
inductive SForest : Type where
  | nil : SForest
  | cons (hd : SNode) (tl : SForest) : SForest

end

def SNode.keyword : SNode → String
  | .node k _ _ _ _ _ _ _ _ => k

def SNode.arg : SNode → String
  | .node _ a _ _ _ _ _ _ _ => a

def SNode.minEl : SNode → Option Int
  | .node _ _ m _ _ _ _ _ _ => m

def SNode.maxEl : SNode → Option String
  | .node _ _ _ m _ _ _ _ _ => m

def SNode.presence : SNode → Option String
  | .node _ _ _ _ p _ _ _ _ => p

def SNode.typeArg : SNode → Option String
  | .node _ _ _ _ _ t _ _ _ => t

def SNode.iDefault : SNode → Option String
  | .node _ _ _ _ _ _ d _ _ => d

def SNode.mainMod : SNode → Nat
  | .node _ _ _ _ _ _ _ m _ => m

def SNode.children : SNode → SForest
  | .node _ _ _ _ _ _ _ _ c => c

def SForest.length : SForest → Nat
  | .nil => 0
  | .cons _ tl => tl.length + 1

/-- A module handed to emit: its identity, the arg of its namespace
substatement (read when ns_uri is built), and its i_children. -/
structure YangModule where
  modId : Nat
  namespaceArg : String
  body : SForest

/-- An ElementTree node: an element with tag, attributes, optional text
and children, or a comment. -/
inductive XNode : Type where
  | elem (tag : String) (attrs : List (String × String))
      (text : Option String) (children : List XNode) : XNode
  | comment (s : String) : XNode

/-- The exceptions emit can raise.  emitError models error.EmitError;
dispatchKeyError models the KeyError from node_handler[ch.keyword];
nsKeyError models the KeyError from ns_uri[mm]; attributeError models the
AttributeError from search_one("type").arg when the leaf has no type
substatement. -/
inductive PyErr : Type where
  | emitError (msg : String)
  | dispatchKeyError (kw : String)
  | nsKeyError (modId : Nat)
  | attributeError
deriving DecidableEq

/-- The values of the node_handler dispatch table.  processChildren is
shared by choice and case; ignore by rpc and notification. -/
inductive Handler : Type where
  | container | leaf | anyxml | processChildren | list | leafList | ignore
deriving DecidableEq

/-- The association list behind the node_handler dict built in emit, in
the order the dict literal writes it. -/
def nodeHandlerList : List (String × Handler) :=
  [("container", Handler.container),
   ("leaf", Handler.leaf),
   ("anyxml", Handler.anyxml),
   ("choice", Handler.processChildren),
   ("case", Handler.processChildren),
   ("list", Handler.list),
   ("leaf-list", Handler.leafList),
   ("rpc", Handler.ignore),
   ("notification", Handler.ignore)]

/-- Lookup in the node_handler dict; none models a KeyError. -/
def node_handler (kw : String) : Option Handler :=
  (nodeHandlerList.find? (fun e => e.1 == kw)).map (fun e => e.2)

/-- The per-invocation data emit stores on self before the traversal:
self.annots, self.defaults, and the modules list from which the ns_uri
dict is built. -/
structure Env where
  annots : Bool
  defaults : Bool
  mods : List YangModule

/-- The ns_uri dict built in emit: module identity to namespace arg;
none models a KeyError. -/
def nsUri (mods : List YangModule) (m : Nat) : Option String :=
  (mods.find? (fun yam => yam.modId == m)).map (fun yam => yam.namespaceArg)

/-- sample_element without the element itself: the attributes the new
element gets and the updated self.currmod.  The xmlns attribute is
declared exactly when the main module of the node differs from currmod. -/
def sampleAttrs (env : Env) (cm : Option Nat) (mm : Nat) :
    Except PyErr (List (String × String) × Option Nat) :=
  if cm = some mm then Except.ok ([], cm)
  else
    match nsUri env.mods mm with
    | some u => Except.ok ([("xmlns", u)], some mm)
    | none => Except.error (PyErr.nsKeyError mm)

/-- The comment list_comment inserts at position 0 of a list or leaf-list
element when --sample-annots is given. -/
def listCommentNode (minEl : Option Int) (maxEl : Option String) : XNode :=
  let lo := match minEl with
    | none => "0"
    | some m => toString m
  let hi := match maxEl with
    | none => ""
    | some a => a
  XNode.comment (" # entries: " ++ lo ++ ".." ++ hi ++ " ")

/-- The number of extra deep copies add_copies appends: range(rep) for
rep = 0 if minel is None else int(minel.arg) - 1, so max 0 (m - 1). -/
def addCopiesCount (minEl : Option Int) : Nat :=
  (match minEl with
    | none => (0 : Int)
    | some m => m - 1).toNat

mutual

/-- Run the handler registered for the keyword of one node.  The node
contributes a list of XNode appended to the parent element, and the
traversal threads self.currmod.  Each dispatch arm inlines the
corresponding SamplePlugin method. -/
def handleNode (env : Env) (cm : Option Nat) (n : SNode) :
    Except PyErr (List XNode × Option Nat) :=
  match n with
  | SNode.node kw arg minEl maxEl pres ty idef mm children =>
    match node_handler kw with
    | none => Except.error (PyErr.dispatchKeyError kw)
    | some Handler.container =>
      match sampleAttrs env cm mm with
      | Except.error e => Except.error e
      | Except.ok (attrs, cm1) =>
        match handleForest env cm1 children with
        | Except.error e => Except.error e
        | Except.ok (chs, cm2) =>
          Except.ok ([XNode.elem arg attrs none
            ((if env.annots then
                match pres with
                | some p => [XNode.comment (" presence: " ++ p ++ " ")]
                | none => []
              else []) ++ chs)], cm2)
    | some Handler.leaf =>
      match idef with
      | none =>
        match sampleAttrs env cm mm with
        | Except.error e => Except.error e
        | Except.ok (attrs, cm1) =>
          if env.annots then
            match ty with
            | some t =>
              Except.ok
                ([XNode.elem arg attrs none
                    [XNode.comment (" type: " ++ t ++ " ")]], cm1)
            | none => Except.error PyErr.attributeError
          else Except.ok ([XNode.elem arg attrs none []], cm1)
      | some d =>
        if env.defaults then
          match sampleAttrs env cm mm with
          | Except.error e => Except.error e
          | Except.ok (attrs, cm1) =>
            Except.ok ([XNode.elem arg attrs (some d) []], cm1)
        else Except.ok ([], cm)
    | some Handler.anyxml =>
      match sampleAttrs env cm mm with
      | Except.error e => Except.error e
      | Except.ok (attrs, cm1) =>
        Except.ok ([XNode.elem arg attrs none
          (if env.annots then [XNode.comment " anyxml "] else [])], cm1)
    | some Handler.processChildren => handleForest env cm children
    | some Handler.list =>
      match sampleAttrs env cm mm with
      | Except.error e => Except.error e
      | Except.ok (attrs, cm1) =>
        match handleForest env cm1 children with
        | Except.error e => Except.error e
        | Except.ok (chs, cm2) =>
          Except.ok
            ((if env.annots then
                XNode.elem arg attrs none (listCommentNode minEl maxEl :: chs)
              else XNode.elem arg attrs none chs) ::
              List.replicate (addCopiesCount minEl)
                (XNode.elem arg attrs none chs), cm2)
    | some Handler.leafList =>
      match sampleAttrs env cm mm with
      | Except.error e => Except.error e
      | Except.ok (attrs, cm1) =>
        Except.ok
          ((if env.annots then
              XNode.elem arg attrs none [listCommentNode minEl maxEl]
            else XNode.elem arg attrs none []) ::
            List.replicate (addCopiesCount minEl)
              (XNode.elem arg attrs none []), cm1)
    | some Handler.ignore => Except.ok ([], cm)
termination_by structural n

/-- process_children: handle the i_children of a node in order, each via
the handler registered for its keyword, concatenating in order what each
child appends to the parent element. -/
def handleForest (env : Env) (cm : Option Nat) (f : SForest) :
    Except PyErr (List XNode × Option Nat) :=
  match f with
  | SForest.nil => Except.ok ([], cm)
  | SForest.cons c cs =>
    match handleNode env cm c with
    | Except.error e => Except.error e
    | Except.ok (xs, cm1) =>
      match handleForest env cm1 cs with
      | Except.error e => Except.error e
      | Except.ok (ys, cm2) => Except.ok (xs ++ ys, cm2)
termination_by structural f

end

/-- The per-module loop of emit: self.currmod is reset to None before
the process_children call of each module, and the subtrees of all modules are
appended to the top element in module order. -/
def processModules (env : Env) : List YangModule → Except PyErr (List XNode)
  | [] => Except.ok []
  | yam :: rest =>
    match handleForest env none yam.body with
    | Except.error e => Except.error e
    | Except.ok (chs, _) =>
      match processModules env rest with
      | Except.error e => Except.error e
      | Except.ok more => Except.ok (chs ++ more)

/-- One diagnostic of the context error list.  Modelled from the spec:
pyang.error (err_level, is_error) is part of the host toolchain and not
under src, so each diagnostic carries its etag together with the boolean
value of error.is_error(error.err_level(etag)). -/
structure CtxError where
  etag : String
  isErrLevel : Bool

/-- The command-line options emit reads. -/
structure Opts where
  doctype : String
  sample_defaults : Bool
  sample_annots : Bool

/-- The context handed to emit: its accumulated diagnostics and options. -/
structure Ctx where
  errors : List CtxError
  opts : Opts

def ncNamespace : String := "urn:ietf:params:xml:ns:netconf:base:1.0"

/-- SamplePlugin.emit: raise EmitError if the context holds an
error-level diagnostic or the doctype option is neither config nor data;
otherwise build the top element named after the doctype with the
xmlns:nc attribute, fill it from all modules, and write the tree. -/
def emit (ctx : Ctx) (modules : List YangModule) : Except PyErr XNode :=
  if ctx.errors.any (fun e => e.isErrLevel) then
    Except.error (PyErr.emitError "Sample plugin needs a valid module")
  else if ¬ (ctx.opts.doctype = "config" ∨ ctx.opts.doctype = "data") then
    Except.error
      (PyErr.emitError ("Unsupported document type: " ++ ctx.opts.doctype))
  else
    let env : Env :=
      { annots := ctx.opts.sample_annots,
        defaults := ctx.opts.sample_defaults,
        mods := modules }
    match processModules env modules with
    | Except.error e => Except.error e
    | Except.ok chs =>
      Except.ok
        (XNode.elem ctx.opts.doctype [("xmlns:nc", ncNamespace)] none chs)

/-- Refinement model written from the claim for process_children: for
each child of the node, in i_children order, invoke exactly the handler
registered for its keyword in the dispatch table, and keep the
contribution of each child separate.  The claim is that the traversal
equals the ordered concatenation of these per-child parts, so that the
XML elements of the children appear under the parent in i_children
order. -/
def forestParts (env : Env) (cm : Option Nat) (f : SForest) :
    Except PyErr (List (List XNode) × Option Nat) :=
  match f with
  | SForest.nil => Except.ok ([], cm)
  | SForest.cons c cs =>
    match handleNode env cm c with
    | Except.error e => Except.error e
    | Except.ok (xs, cm1) =>
      match forestParts env cm1 cs with
      | Except.error e => Except.error e
      | Except.ok (parts, cm2) => Except.ok (xs :: parts, cm2)
termination_by structural f

/-- The keywords the node_handler dict of emit covers. -/
def sampleKeywords : List String :=
  ["container", "leaf", "anyxml", "choice", "case",
   "list", "leaf-list", "rpc", "notification"]

mutual

/-- Every node of this subtree has a keyword covered by the dispatch
table. -/
def allHandledNode (n : SNode) : Bool :=
  match n with
  | SNode.node kw _ _ _ _ _ _ _ children =>
    sampleKeywords.contains kw && allHandledForest children
termination_by structural n

/-- Every node of this forest has a keyword covered by the dispatch
table. -/
def allHandledForest (f : SForest) : Bool :=
  match f with
  | SForest.nil => true
  | SForest.cons c cs => allHandledNode c && allHandledForest cs
termination_by structural f

end

/-- The instance attributes emit stores on the SamplePlugin object:
self.annots, self.defaults, the modules underlying self.ns_uri, and
self.currmod.  self.node_handler is rebuilt to the same table on every
call and self.top is fully determined by the call, so neither needs to
be carried between invocations. -/
structure PState where
  annots : Bool
  defaults : Bool
  mods : List YangModule
  currmod : Option Nat

/-- The per-module loop of emit with the final value of self.currmod
made explicit: currmod is reset to None before each module and the loop
returns its value after the last module; with no modules it keeps the
incoming value.  The value currmod holds when an exception escapes the
traversal is not observed by anything, and is approximated as none. -/
def loopModules (env : Env) (cm0 : Option Nat) :
    List YangModule → Except PyErr (List XNode) × Option Nat
  | [] => (Except.ok [], cm0)
  | yam :: rest =>
    match handleForest env none yam.body with
    | Except.error e => (Except.error e, none)
    | Except.ok (chs, cm1) =>
      match loopModules env cm1 rest with
      | (Except.error e, cmE) => (Except.error e, cmE)
      | (Except.ok more, cm2) => (Except.ok (chs ++ more), cm2)

/-- SamplePlugin.emit together with the plugin instance state it leaves
behind: the guard raises happen before any attribute is assigned, and
annots, defaults, ns_uri and currmod are all reinitialized from the
arguments before the traversal reads them. -/
def emitSt (s : PState) (ctx : Ctx) (modules : List YangModule) :
    Except PyErr XNode × PState :=
  if ctx.errors.any (fun e => e.isErrLevel) then
    (Except.error (PyErr.emitError "Sample plugin needs a valid module"), s)
  else if ¬ (ctx.opts.doctype = "config" ∨ ctx.opts.doctype = "data") then
    (Except.error
      (PyErr.emitError ("Unsupported document type: " ++ ctx.opts.doctype)), s)
  else
    let env : Env :=
      { annots := ctx.opts.sample_annots,
        defaults := ctx.opts.sample_defaults,
        mods := modules }
    let r := loopModules env s.currmod modules
    let s1 : PState :=
      { annots := env.annots, defaults := env.defaults,
        mods := modules, currmod := r.2 }
    match r.1 with
    | Except.error e => (Except.error e, s1)
    | Except.ok chs =>
      (Except.ok
        (XNode.elem ctx.opts.doctype [("xmlns:nc", ncNamespace)] none chs), s1)

/-! Concrete schema trees used by the witnesses and counterexamples. -/

/-- A plain leaf of type string with no default. -/
def wLeaf : SNode :=
  SNode.node "leaf" "lf" none none none (some "string") none 0 SForest.nil

/-- A container holding the plain leaf. -/
def wCont : SNode :=
  SNode.node "container" "top" none none none none none 0
    (SForest.cons wLeaf SForest.nil)

/-- A list with min-elements 3 holding one leaf. -/
def wList : SNode :=
  SNode.node "list" "it" (some 3) none none none none 0
    (SForest.cons (SNode.node "leaf" "k" none none none (some "string")
      none 0 SForest.nil) SForest.nil)

/-- A leaf-list with no min-elements substatement. -/
def wLeafList : SNode :=
  SNode.node "leaf-list" "ll" none none none (some "string") none 0 SForest.nil

/-- A leaf of type string with default 42. -/
def wLeafDef : SNode :=
  SNode.node "leaf" "ld" none none none (some "string") (some "42") 0
    SForest.nil

/-- An rpc node, ignored by the traversal. -/
def wRpc : SNode :=
  SNode.node "rpc" "do-it" none none none none none 0 SForest.nil

/-- A module whose single top-level node is the container. -/
def wModCont : YangModule :=
  { modId := 0, namespaceArg := "urn:example:a", body := SForest.cons wCont SForest.nil }

/-- A module whose single top-level data node is a leaf with a default. -/
def wModLeafDef : YangModule :=
  { modId := 0, namespaceArg := "urn:example:a",
    body := SForest.cons wLeafDef SForest.nil }

/-- A module exercising list, leaf-list and rpc nodes. -/
def wModMixed : YangModule :=
  { modId := 0, namespaceArg := "urn:example:a",
    body := SForest.cons wList (SForest.cons wLeafList
      (SForest.cons wRpc SForest.nil)) }

/-- Options: doctype data, no defaults, no annotations. -/
def wOpts : Opts :=
  { doctype := "data", sample_defaults := false, sample_annots := false }

/-- A context with no diagnostics. -/
def wCtx : Ctx := { errors := [], opts := wOpts }

/-- A context carrying one error-level diagnostic. -/
def wCtxErr : Ctx :=
  { errors := [{ etag := "MODULE_NOT_FOUND", isErrLevel := true }],
    opts := wOpts }

/-- The environment emit builds from wCtx for one module. -/
def wEnv (m : YangModule) : Env :=
  { annots := false, defaults := false, mods := [m] }

/-- One sample entry of the list wList. -/
def wListEntry : XNode :=
  XNode.elem "it" [("xmlns", "urn:example:a")] none [XNode.elem "k" [] none []]

/-- The contribution of wList to its parent: min-elements 3 entries. -/
def wListOut : List XNode := [wListEntry, wListEntry, wListEntry]

/-- The children of the top element for wModCont. -/
def wContChs : List XNode :=
  [XNode.elem "top" [("xmlns", "urn:example:a")] none
    [XNode.elem "lf" [] none []]]

/-! Helper lemmas about the traversal. -/

theorem sampleAttrs_error_shape (env : Env) (cm : Option Nat) (mm : Nat)
    (e : PyErr) (h : sampleAttrs env cm mm = Except.error e) :
    e = PyErr.nsKeyError mm := by
  unfold sampleAttrs at h
  split at h
  · exact absurd h (by simp)
  · split at h
    · exact absurd h (by simp)
    · injection h with h2
      exact h2.symm

theorem contains_node_handler (kw : String)
    (h : sampleKeywords.contains kw = true) :
    (node_handler kw).isSome = true := by
  have hm : kw ∈ sampleKeywords := by
    simpa using h
  fin_cases hm <;> rfl

mutual

theorem handleNode_error_shape (env : Env) (cm : Option Nat) (n : SNode)
    (e : PyErr) (h : handleNode env cm n = Except.error e) :
    (∀ msg, e ≠ PyErr.emitError msg) ∧
      (allHandledNode n = true → ∀ kw2, e ≠ PyErr.dispatchKeyError kw2) := by
  cases n with
  | node kw arg minEl maxEl pres ty idef mm children =>
    simp only [handleNode] at h
    split at h
    · rename_i hnh
      injection h with h2
      subst h2
      refine ⟨fun msg => by simp, fun hall kw2 hcontra => ?_⟩
      have hck : sampleKeywords.contains kw = true := by
        simp only [allHandledNode, Bool.and_eq_true] at hall
        exact hall.1
      have hsome := contains_node_handler kw hck
      rw [hnh] at hsome
      simp at hsome
    · -- container
      rename_i hnh
      split at h
      · rename_i e1 he1
        injection h with h2
        subst h2
        have h3 := sampleAttrs_error_shape env cm mm _ he1
        subst h3
        exact ⟨fun msg => by simp, fun _ kw2 => by simp⟩
      · rename_i attrs cm1 hs
        split at h
        · rename_i e1 he1
          injection h with h2
          subst h2
          have ih := handleForest_error_shape env cm1 children _ he1
          refine ⟨ih.1, fun hall kw2 => ?_⟩
          have hall2 : allHandledForest children = true := by
            simp only [allHandledNode, Bool.and_eq_true] at hall
            exact hall.2
          exact ih.2 hall2 kw2
        · exact absurd h (by simp)
    · -- leaf
      rename_i hnh
      split at h
      · -- no default
        split at h
        · rename_i e1 he1
          injection h with h2
          subst h2
          have h3 := sampleAttrs_error_shape env cm mm _ he1
          subst h3
          exact ⟨fun msg => by simp, fun _ kw2 => by simp⟩
        · rename_i attrs cm1 hs
          split at h
          · split at h
            · exact absurd h (by simp)
            · injection h with h2
              subst h2
              exact ⟨fun msg => by simp, fun _ kw2 => by simp⟩
          · exact absurd h (by simp)
      · -- default present
        split at h
        · split at h
          · rename_i e1 he1
            injection h with h2
            subst h2
            have h3 := sampleAttrs_error_shape env cm mm _ he1
            subst h3
            exact ⟨fun msg => by simp, fun _ kw2 => by simp⟩
          · exact absurd h (by simp)
        · exact absurd h (by simp)
    · -- anyxml
      rename_i hnh
      split at h
      · rename_i e1 he1
        injection h with h2
        subst h2
        have h3 := sampleAttrs_error_shape env cm mm _ he1
        subst h3
        exact ⟨fun msg => by simp, fun _ kw2 => by simp⟩
      · exact absurd h (by simp)
    · -- choice and case
      rename_i hnh
      have ih := handleForest_error_shape env cm children _ h
      refine ⟨ih.1, fun hall kw2 => ?_⟩
      have hall2 : allHandledForest children = true := by
        simp only [allHandledNode, Bool.and_eq_true] at hall
        exact hall.2
      exact ih.2 hall2 kw2
    · -- list
      rename_i hnh
      split at h
      · rename_i e1 he1
        injection h with h2
        subst h2
        have h3 := sampleAttrs_error_shape env cm mm _ he1
        subst h3
        exact ⟨fun msg => by simp, fun _ kw2 => by simp⟩
      · rename_i attrs cm1 hs
        split at h
        · rename_i e1 he1
          injection h with h2
          subst h2
          have ih := handleForest_error_shape env cm1 children _ he1
          refine ⟨ih.1, fun hall kw2 => ?_⟩
          have hall2 : allHandledForest children = true := by
            simp only [allHandledNode, Bool.and_eq_true] at hall
            exact hall.2
          exact ih.2 hall2 kw2
        · exact absurd h (by simp)
    · -- leaf-list
      rename_i hnh
      split at h
      · rename_i e1 he1
        injection h with h2
        subst h2
        have h3 := sampleAttrs_error_shape env cm mm _ he1
        subst h3
        exact ⟨fun msg => by simp, fun _ kw2 => by simp⟩
      · exact absurd h (by simp)
    · -- rpc and notification
      exact absurd h (by simp)
termination_by structural n

theorem handleForest_error_shape (env : Env) (cm : Option Nat) (f : SForest)
    (e : PyErr) (h : handleForest env cm f = Except.error e) :
    (∀ msg, e ≠ PyErr.emitError msg) ∧
      (allHandledForest f = true → ∀ kw2, e ≠ PyErr.dispatchKeyError kw2) := by
  cases f with
  | nil => simp [handleForest] at h
  | cons c cs =>
    simp only [handleForest] at h
    split at h
    · rename_i e1 he1
      injection h with h2
      subst h2
      have ih := handleNode_error_shape env cm c _ he1
      refine ⟨ih.1, fun hall kw2 => ?_⟩
      have hc : allHandledNode c = true := by
        simp only [allHandledForest, Bool.and_eq_true] at hall
        exact hall.1
      exact ih.2 hc kw2
    · rename_i xs cm1 hs
      split at h
      · rename_i e1 he1
        injection h with h2
        subst h2
        have ih := handleForest_error_shape env cm1 cs _ he1
        refine ⟨ih.1, fun hall kw2 => ?_⟩
        have hcs : allHandledForest cs = true := by
          simp only [allHandledForest, Bool.and_eq_true] at hall
          exact hall.2
        exact ih.2 hcs kw2
      · exact absurd h (by simp)
termination_by structural f

end

theorem handleForest_eq_parts (env : Env) (cm : Option Nat) (f : SForest) :
    handleForest env cm f =
      Except.map (fun p => (p.1.flatten, p.2)) (forestParts env cm f) := by
  cases f with
  | nil => rfl
  | cons c cs =>
    rw [handleForest, forestParts]
    cases hn : handleNode env cm c with
    | error e => rfl
    | ok p =>
      obtain ⟨xs, cm1⟩ := p
      dsimp only
      rw [handleForest_eq_parts env cm1 cs]
      cases hp : forestParts env cm1 cs with
      | error e => rfl
      | ok q => rfl
termination_by structural f

theorem processModules_no_emitError (env : Env) (ms : List YangModule)
    (e : PyErr) (h : processModules env ms = Except.error e) :
    ∀ msg, e ≠ PyErr.emitError msg := by
  induction ms with
  | nil => simp [processModules] at h
  | cons yam rest ih =>
    simp only [processModules] at h
    split at h
    · rename_i e1 he1
      injection h with h2
      subst h2
      exact (handleForest_error_shape env none yam.body _ he1).1
    · rename_i chs cm1 hs
      split at h
      · rename_i e1 he1
        injection h with h2
        subst h2
        exact ih he1
      · exact absurd h (by simp)

theorem loopModules_fst (env : Env) (cm0 : Option Nat)
    (ms : List YangModule) :
    (loopModules env cm0 ms).1 = processModules env ms := by
  induction ms generalizing cm0 with
  | nil => rfl
  | cons yam rest ih =>
    rw [loopModules, processModules]
    cases hf : handleForest env none yam.body with
    | error e => rfl
    | ok p =>
      obtain ⟨chs, cm1⟩ := p
      dsimp only
      rw [← ih cm1]
      cases hl : loopModules env cm1 rest with
      | mk r cmr =>
        cases r with
        | error e => rfl
        | ok more => rfl

theorem emitSt_fst (s : PState) (ctx : Ctx) (modules : List YangModule) :
    (emitSt s ctx modules).1 = emit ctx modules := by
  unfold emitSt emit
  split
  · rfl
  · split
    · rfl
    · dsimp only
      rw [← loopModules_fst
        { annots := ctx.opts.sample_annots,
          defaults := ctx.opts.sample_defaults, mods := modules }
        s.currmod modules]
      cases hl : loopModules
          { annots := ctx.opts.sample_annots,
            defaults := ctx.opts.sample_defaults, mods := modules }
          s.currmod modules with
      | mk r cmr =>
        cases r with
        | error e => rfl
        | ok chs => rfl

theorem emit_raises_iff (ctx : Ctx) (modules : List YangModule) :
    (∃ msg, emit ctx modules = Except.error (PyErr.emitError msg)) ↔
      (ctx.errors.any (fun e => e.isErrLevel) = true ∨
        (ctx.opts.doctype ≠ "config" ∧ ctx.opts.doctype ≠ "data")) := by
  unfold emit
  by_cases ha : ctx.errors.any (fun e => e.isErrLevel) = true
  · simp only [ha, if_true]
    exact ⟨fun _ => Or.inl trivial,
      fun _ => ⟨"Sample plugin needs a valid module", rfl⟩⟩
  · simp only [ha, if_false]
    by_cases hd : ctx.opts.doctype = "config" ∨ ctx.opts.doctype = "data"
    · rw [if_neg (not_not_intro hd)]
      constructor
      · rintro ⟨msg, h⟩
        exfalso
        cases hp : processModules
            { annots := ctx.opts.sample_annots,
              defaults := ctx.opts.sample_defaults, mods := modules }
            modules with
        | error e =>
          rw [hp] at h
          have he : e = PyErr.emitError msg := by
            injection h
          exact processModules_no_emitError _ _ _ hp msg he
        | ok chs =>
          rw [hp] at h
          exact absurd h (by simp)
      · rintro (hr | hr)
        · exact absurd hr (by simp)
        · rcases hd with hd | hd
          · exact absurd hd hr.1
          · exact absurd hd hr.2
    · rw [if_pos hd]
      constructor
      · intro _
        refine Or.inr ⟨?_, ?_⟩
        · intro hc
          exact hd (Or.inl hc)
        · intro hc
          exact hd (Or.inr hc)
      · intro _
        exact ⟨"Unsupported document type: " ++ ctx.opts.doctype, rfl⟩

/-! The claims. -/

/-- C1, counterexample: a valid module whose only top-level data node is
a leaf with a default produces, with --sample-defaults unset, a root
element with no sample subtree at all, so the output does not contain
one sample subtree for each top-level data node of each module. -/
theorem C1_counterexample :
    emit wCtx [wModLeafDef] =
        Except.ok (XNode.elem "data" [("xmlns:nc", ncNamespace)] none []) ∧
      wModLeafDef.body.length = 1 ∧ wLeafDef.keyword = "leaf" ∧
      wLeafDef.iDefault = some "42" :=
  ⟨rfl, rfl, rfl, rfl⟩

/-- C1, amended: for a context without error-level diagnostics and a
doctype option equal to config or data, emit walks the schema trees of
all modules and writes a single XML document whose root element is named
after the doctype option, carries the xmlns:nc netconf attribute, and
whose children are exactly the sample subtrees the traversal produces
for the top-level nodes of each module, in module order; a top-level
data node can contribute zero subtrees (a leaf with a default when
--sample-defaults is unset) or several (a list with min-elements above
one). -/
theorem C1_emit_root_structure (ctx : Ctx) (modules : List YangModule)
    (chs : List XNode)
    (h1 : ctx.errors.any (fun e => e.isErrLevel) = false)
    (h2 : ctx.opts.doctype = "config" ∨ ctx.opts.doctype = "data")
    (h3 : processModules
        { annots := ctx.opts.sample_annots,
          defaults := ctx.opts.sample_defaults, mods := modules } modules =
      Except.ok chs) :
    emit ctx modules =
      Except.ok (XNode.elem ctx.opts.doctype [("xmlns:nc", ncNamespace)]
        none chs) := by
  unfold emit
  simp only [h1, Bool.false_eq_true, if_false]
  rw [if_neg (not_not_intro h2)]
  rw [h3]

/-- C1 witness: a module with one container holding one leaf yields the
document with root data, the netconf namespace attribute, and the sample
subtree of the container. -/
theorem C1_emit_root_structure_witness :
    emit wCtx [wModCont] =
      Except.ok (XNode.elem wCtx.opts.doctype [("xmlns:nc", ncNamespace)]
        none wContChs) :=
  C1_emit_root_structure wCtx [wModCont] wContChs rfl (Or.inr rfl) rfl

/-- C2, counterexample: emit does reject its input: on a context holding
one error-level diagnostic it raises EmitError instead of producing
output. -/
theorem C2_counterexample :
    emit wCtxErr [wModCont] =
      Except.error (PyErr.emitError "Sample plugin needs a valid module") :=
  rfl

/-- C2, amended: the plugin performs no parsing and no validation of the
YANG input itself, but emit does reject its input in exactly two cases:
it raises EmitError when the context carries an error-level diagnostic
or when the doctype option is invalid; for a clean context and a doctype
of config or data no execution of emit raises an EmitError. -/
theorem C2_no_reject_when_clean (ctx : Ctx) (modules : List YangModule)
    (msg : String)
    (h1 : ctx.errors.any (fun e => e.isErrLevel) = false)
    (h2 : ctx.opts.doctype = "config" ∨ ctx.opts.doctype = "data") :
    emit ctx modules ≠ Except.error (PyErr.emitError msg) := by
  intro h
  rcases (emit_raises_iff ctx modules).1 ⟨msg, h⟩ with hr | hr
  · rw [h1] at hr
    exact absurd hr (by simp)
  · rcases h2 with h2 | h2
    · exact hr.1 h2
    · exact hr.2 h2

/-- C2 witness: with an empty error list and doctype data, emit does not
raise the EmitError carrying any particular message. -/
theorem C2_no_reject_when_clean_witness :
    emit wCtx [wModCont] ≠
      Except.error (PyErr.emitError "Sample plugin needs a valid module") :=
  C2_no_reject_when_clean wCtx [wModCont]
    "Sample plugin needs a valid module" rfl (Or.inr rfl)

/-- C3: for a list or leaf-list node, the number of sample entries the
node contributes to its parent is its min-elements value m when m is at
least one, and exactly one when the node has no min-elements
substatement or m is zero: the original element plus
max 0 (m - 1) deep copies. -/
theorem C3_min_elements_count (env : Env) (cm : Option Nat) (n : SNode)
    (out : List XNode) (cm2 : Option Nat)
    (hkw : n.keyword = "list" ∨ n.keyword = "leaf-list")
    (h : handleNode env cm n = Except.ok (out, cm2)) :
    (n.minEl = none → out.length = 1) ∧
      (n.minEl = some 0 → out.length = 1) ∧
      (∀ m : Int, n.minEl = some m → 1 ≤ m → (out.length : Int) = m) := by
  cases n with
  | node kw arg minEl maxEl pres ty idef mm children =>
    simp only [SNode.keyword] at hkw
    simp only [SNode.minEl]
    simp only [handleNode] at h
    rcases hkw with hkw | hkw <;> subst hkw
    · split at h
      · rename_i heq
        exact absurd heq (by decide)
      · rename_i heq
        exact absurd heq (by decide)
      · rename_i heq
        exact absurd heq (by decide)
      · rename_i heq
        exact absurd heq (by decide)
      · rename_i heq
        exact absurd heq (by decide)
      · -- list arm
        split at h
        · exact absurd h (by simp)
        · rename_i attrs cm1 hs
          split at h
          · exact absurd h (by simp)
          · rename_i chs cmc hf
            injection h with h2
            injection h2 with h3 h4
            subst h3
            refine ⟨?_, ?_, ?_⟩
            · intro hm
              subst hm
              simp [addCopiesCount]
            · intro hm
              subst hm
              have hc : addCopiesCount (some 0) = 0 := by decide
              simp [hc]
            · intro m hm hle
              subst hm
              simp only [List.length_cons, List.length_replicate,
                addCopiesCount]
              omega
      · rename_i heq
        exact absurd heq (by decide)
      · rename_i heq
        exact absurd heq (by decide)
    · split at h
      · rename_i heq
        exact absurd heq (by decide)
      · rename_i heq
        exact absurd heq (by decide)
      · rename_i heq
        exact absurd heq (by decide)
      · rename_i heq
        exact absurd heq (by decide)
      · rename_i heq
        exact absurd heq (by decide)
      · rename_i heq
        exact absurd heq (by decide)
      · -- leaf-list arm
        split at h
        · exact absurd h (by simp)
        · rename_i attrs cm1 hs
          injection h with h2
          injection h2 with h3 h4
          subst h3
          refine ⟨?_, ?_, ?_⟩
          · intro hm
            subst hm
            simp [addCopiesCount]
          · intro hm
            subst hm
            have hc : addCopiesCount (some 0) = 0 := by decide
            simp [hc]
          · intro m hm hle
            subst hm
            simp only [List.length_cons, List.length_replicate,
              addCopiesCount]
            omega
      · rename_i heq
        exact absurd heq (by decide)

/-- C3 witness: the list with min-elements 3 contributes three entries. -/
theorem C3_min_elements_count_witness :
    (wListOut.length : Int) = 3 :=
  (C3_min_elements_count (wEnv wModMixed) none wList wListOut (some 0)
    (Or.inl rfl) rfl).2.2 3 rfl (by decide)

/-- C4: the transformation is a single depth-first traversal driven by
the dispatch table: process_children handles the children of a node in
i_children order, invoking for each child exactly the handler registered
for its keyword, and the XML the children contribute appears under the
parent as the ordered concatenation of the per-child contributions, with
currmod threaded left to right. -/
theorem C4_children_in_order (env : Env) (cm : Option Nat) (f : SForest) :
    handleForest env cm f =
      Except.map (fun p => (p.1.flatten, p.2)) (forestParts env cm f) :=
  handleForest_eq_parts env cm f

/-- C5: execution is stateless across invocations: the output of emit is
the same for any two instance states the plugin object may be in,
because emit reinitializes annots, defaults, node_handler, ns_uri, top
and currmod from its arguments before the traversal reads them. -/
theorem C5_emit_stateless (s1 s2 : PState) (ctx : Ctx)
    (modules : List YangModule) :
    (emitSt s1 ctx modules).1 = (emitSt s2 ctx modules).1 := by
  rw [emitSt_fst, emitSt_fst]

/-- C6: when every node reachable through i_children carries one of the
nine keywords of the dispatch table, the dispatch is total: the lookup
of a keyword in the handler table never fails, so the traversal never
stops with an unhandled-keyword error. -/
theorem C6_dispatch_total (env : Env) (cm : Option Nat) (f : SForest)
    (hall : allHandledForest f = true) (kw : String) :
    handleForest env cm f ≠ Except.error (PyErr.dispatchKeyError kw) :=
  fun heq => (handleForest_error_shape env cm f _ heq).2 hall kw rfl

/-- C6 witness: a forest with list, leaf-list and rpc top-level nodes is
fully handled and its traversal is not a dispatch KeyError. -/
theorem C6_dispatch_total_witness :
    handleForest (wEnv wModMixed) none wModMixed.body ≠
      Except.error (PyErr.dispatchKeyError "anydata") :=
  C6_dispatch_total (wEnv wModMixed) none wModMixed.body rfl "anydata"

/-- C7: emit raises EmitError if and only if the context holds at least
one error-level diagnostic or the doctype option is neither config nor
data; in the model an error result carries no document at all, matching
that the two guards fire before any element is built or any byte is
written. -/
theorem C7_emitError_iff (ctx : Ctx) (modules : List YangModule) :
    (∃ msg, emit ctx modules = Except.error (PyErr.emitError msg)) ↔
      (ctx.errors.any (fun e => e.isErrLevel) = true ∨
        (ctx.opts.doctype ≠ "config" ∧ ctx.opts.doctype ≠ "data")) :=
  emit_raises_iff ctx modules

/-- C8: for a leaf node: with no default an empty sample element is
always emitted (with only a type comment inside when --sample-annots is
set); with a default, an element is emitted only when --sample-defaults
is set, and then its text is the string form of the default; with
--sample-defaults unset a leaf with a default produces no element at
all and leaves currmod untouched. -/
theorem C8_leaf_behavior (env : Env) (cm : Option Nat) (n : SNode)
    (out : List XNode) (cm2 : Option Nat)
    (hkw : n.keyword = "leaf")
    (h : handleNode env cm n = Except.ok (out, cm2)) :
    (n.iDefault = none → env.annots = false →
        ∃ attrs, out = [XNode.elem n.arg attrs none []]) ∧
      (n.iDefault = none → env.annots = true →
        ∃ attrs t, n.typeArg = some t ∧
          out = [XNode.elem n.arg attrs none
            [XNode.comment (" type: " ++ t ++ " ")]]) ∧
      (∀ d, n.iDefault = some d → env.defaults = true →
        ∃ attrs, out = [XNode.elem n.arg attrs (some d) []]) ∧
      (∀ d, n.iDefault = some d → env.defaults = false →
        out = [] ∧ cm2 = cm) := by
  cases n with
  | node kw arg minEl maxEl pres ty idef mm children =>
    simp only [SNode.keyword] at hkw
    subst hkw
    simp only [SNode.iDefault, SNode.arg, SNode.typeArg]
    simp only [handleNode] at h
    split at h
    · rename_i heq
      exact absurd heq (by decide)
    · rename_i heq
      exact absurd heq (by decide)
    · -- leaf arm
      split at h
      · -- no default
        rename_i hid
        split at h
        · exact absurd h (by simp)
        · rename_i attrs cm1 hs
          split at h
          · -- annots on
            rename_i hb
            split at h
            · -- type present
              rename_i t ht
              injection h with h2
              injection h2 with h3 h4
              subst h3
              refine ⟨?_, ?_, ?_, ?_⟩
              · intro _ hb2
                rw [hb2] at hb
                exact absurd hb (by simp)
              · intro _ _
                exact ⟨attrs, ht, rfl, rfl⟩
              · intro d hd _
                exact Option.noConfusion hd
              · intro d hd _
                exact Option.noConfusion hd
            · exact absurd h (by simp)
          · -- annots off
            rename_i hb
            injection h with h2
            injection h2 with h3 h4
            subst h3
            refine ⟨?_, ?_, ?_, ?_⟩
            · intro _ _
              exact ⟨attrs, rfl⟩
            · intro _ hb2
              exact absurd hb2 hb
            · intro d hd _
              exact Option.noConfusion hd
            · intro d hd _
              exact Option.noConfusion hd
      · -- default present
        rename_i d0 hid
        split at h
        · -- defaults on
          rename_i hb
          split at h
          · exact absurd h (by simp)
          · rename_i attrs cm1 hs
            injection h with h2
            injection h2 with h3 h4
            subst h3
            refine ⟨?_, ?_, ?_, ?_⟩
            · intro hd _
              exact Option.noConfusion hd
            · intro hd _
              exact Option.noConfusion hd
            · intro d hd _
              refine ⟨attrs, ?_⟩
              injection hd with hd2
              rw [hd2]
            · intro d hd hb2
              rw [hb2] at hb
              exact absurd hb (by simp)
        · -- defaults off
          rename_i hb
          injection h with h2
          injection h2 with h3 h4
          subst h3
          refine ⟨?_, ?_, ?_, ?_⟩
          · intro hd _
            exact Option.noConfusion hd
          · intro hd _
            exact Option.noConfusion hd
          · intro d hd hb2
            exact absurd hb2 hb
          · intro d hd _
            exact ⟨rfl, h4.symm⟩
    · rename_i heq
      exact absurd heq (by decide)
    · rename_i heq
      exact absurd heq (by decide)
    · rename_i heq
      exact absurd heq (by decide)
    · rename_i heq
      exact absurd heq (by decide)
    · rename_i heq
      exact absurd heq (by decide)

/-- C8 witness: the plain leaf without default, with annotations off,
yields exactly one empty element. -/
theorem C8_leaf_behavior_witness :
    ∃ attrs, [XNode.elem "lf" [("xmlns", "urn:example:a")] none []] =
      [XNode.elem wLeaf.arg attrs none []] :=
  (C8_leaf_behavior (wEnv wModCont) none wLeaf
    [XNode.elem "lf" [("xmlns", "urn:example:a")] none []] (some 0)
    rfl rfl).1 rfl rfl
